import Mathlib

/-!
# Verification of `github.com/bestxp/test-one`

A shallow embedding of the package `reader` (`reader/reader.go`) and of the two
aggregation observers of `cmd/main.go`, followed by theorems about them.

Conventions of the embedding

* Go `int64` values that come out of `strconv.ParseInt` are modelled as `Int`
  (the range check of `ParseInt` is modelled explicitly).
* A Go `string` is a Lean `String`; the standard library routines work on its
  list of characters.
* An observer (`OnItemReadFn`) is a state transformer over a state type `σ`
  that stands for the variables the closure captures; it returns the `error`
  it reports (`none` for `nil`) and the new state.  The `context.Context`
  argument is never consulted by the code and is left out.
* `Run.calls` is a ghost log: it records, in chronological order, every
  invocation of an observer made by `Read`.
* The standard library is modelled from its documentation: `strings.TrimSpace`,
  `strings.HasSuffix`, `strconv.ParseInt` and `encoding/csv` (with the settings
  of `csv.NewReader`: comma separator, no comment character, strict quotes,
  `FieldsPerRecord = 0`).  `encoding/json` and the file system are parameters.
-/

set_option linter.dupNamespace false

namespace reader

/-! ## Data model -/

/-- Item from database (`reader.Item`). -/
structure Item where
  Product : String
  Price : Int
  Rating : Int
deriving DecidableEq, Repr

/-- The two causes of a `*strconv.NumError`. -/
inductive NumErrKind where
  | ErrSyntax
  | ErrRange
deriving DecidableEq, Repr

/-- A `*strconv.NumError`. -/
structure NumError where
  Func : String
  Num : String
  Err : NumErrKind
deriving DecidableEq, Repr

/-- The causes of a `*csv.ParseError` under the settings of `csv.NewReader`.  A
quote error comes with the fields `Line` and `Column` of the `ParseError`: the
line and the byte column (from 1) at which it was found.  For `ErrFieldCount`
the library reports the line on which the record starts. -/
inductive CsvErrKind where
  | ErrBareQuote (Line : Nat) (Column : Nat)
  | ErrQuote (Line : Nat) (Column : Nat)
  | ErrFieldCount
deriving DecidableEq, Repr

/-- A `*csv.ParseError`; `StartLine` is the line on which the record starts. -/
structure ParseError where
  StartLine : Nat
  Err : CsvErrKind
deriving DecidableEq, Repr

/-- The `error` values that occur: the two package variables, the errors of the
CSV library, the errors built with `fmt.Errorf` (an error that is only a
message), the error of `os.Open`, and any other value an observer may return. -/
inductive Error where
  | ErrFileNotExist
  | ErrUnknownFile
  | csv (e : ParseError)
  | errorString (msg : String)
  | pathError (op : String) (path : String) (cause : String)
  | other (tag : String)
deriving DecidableEq, Repr

/-- When any item readed (`reader.OnItemReadFn`). -/
abbrev OnItemReadFn (σ : Type) := Item → σ → Option Error × σ

/-- The struct `jsonReader`. -/
structure jsonReader (σ : Type) where
  file : String
  callbacks : List (OnItemReadFn σ)

/-- The struct `csvReader`. -/
structure csvReader (σ : Type) where
  file : String
  callbacks : List (OnItemReadFn σ)

/-- The two implementations of the interface `Reader`. -/
inductive Reader (σ : Type) where
  | json (j : jsonReader σ)
  | csv (c : csvReader σ)

/-- The constant `extJSON`. -/
def extJSON : String := ".json"

/-- The constant `extCSV`. -/
def extCSV : String := ".csv"

/-! ## Standard library: `strings`, `strconv` -/

/-- The predicate `unicode.IsSpace`. -/
def isSpace (c : Char) : Bool :=
  let n := c.toNat
  n == 0x20 || (0x09 ≤ n && n ≤ 0x0D) || n == 0x85 || n == 0xA0 || n == 0x1680 ||
    (0x2000 ≤ n && n ≤ 0x200A) || n == 0x2028 || n == 0x2029 || n == 0x202F ||
    n == 0x205F || n == 0x3000

/-- The function `strings.TrimSpace`: all leading and trailing white space removed. -/
def TrimSpace (s : String) : String :=
  String.mk ((s.data.dropWhile isSpace).reverse.dropWhile isSpace).reverse

/-- The function `strings.HasSuffix`. -/
def HasSuffix (s suffix : String) : Bool :=
  suffix.data.isSuffixOf s.data

/-- Largest `uint64`. -/
def maxUint64 : Nat := 2 ^ 64 - 1

/-- The digit loop of `strconv.ParseUint(s, 10, 64)`: a character that is not a
decimal digit is a syntax error, an overflow of `uint64` is a range error,
whichever comes first from the left. -/
def parseUintLoop : List Char → Nat → Except NumErrKind Nat
  | [], n => .ok n
  | c :: cs, n =>
    if c.isDigit then
      if n ≥ maxUint64 / 10 + 1 then .error .ErrRange
      else
        let n1 := n * 10 + (c.toNat - 48)
        if n1 > maxUint64 then .error .ErrRange else parseUintLoop cs n1
    else .error .ErrSyntax

/-- The function `strconv.ParseUint(s, 10, 64)`. -/
def ParseUint (s : List Char) : Except NumErrKind Nat :=
  match s with
  | [] => .error .ErrSyntax
  | _ => parseUintLoop s 0

/-- The function `strconv.ParseInt(s, 10, 64)`: an optional sign, then decimal
digits, and the value has to fit `int64`. -/
def ParseInt (s : String) : Except NumError Int :=
  match s.data with
  | [] => .error ⟨"ParseInt", s, .ErrSyntax⟩
  | c :: cs =>
    let neg := c == '-'
    let digits := if c == '+' || c == '-' then cs else c :: cs
    match ParseUint digits with
    | .error k => .error ⟨"ParseInt", s, k⟩
    | .ok un =>
      if !neg && un ≥ 2 ^ 63 then .error ⟨"ParseInt", s, .ErrRange⟩
      else if neg && un > 2 ^ 63 then .error ⟨"ParseInt", s, .ErrRange⟩
      else .ok (if neg then -(un : Int) else (un : Int))

/-- The predicate `strconv.IsPrint`, exact up to U+00FF: the printable ASCII
characters, and from U+00A1 on all but the soft hyphen.  Above U+00FF the
library looks the character up in its Unicode tables; here only the white
space characters are taken as not printable. -/
def IsPrint (c : Char) : Bool :=
  let n := c.toNat
  if n ≤ 0xFF then (0x20 ≤ n && n < 0x7F) || (0xA1 ≤ n && n != 0xAD)
  else !isSpace c

/-- The digit of `n` at the hexadecimal place `w`, in lower case. -/
def lowerhex (n w : Nat) : Char :=
  "0123456789abcdef".data.getD (n / 16 ^ w % 16) '0'

/-- The escaping of one character by `strconv.Quote`: the quote and the
backslash get a backslash, a printable character is kept, the control
characters `\a \b \f \n \r \t \v` have their short escape, the other control
characters are written `\xNN`, and whatever is left `\uNNNN` or `\UNNNNNNNN`. -/
def quoteChar (c : Char) : List Char :=
  let n := c.toNat
  if c == '"' || c == '\\' then ['\\', c]
  else if IsPrint c then [c]
  else if n == 0x07 then ['\\', 'a']
  else if n == 0x08 then ['\\', 'b']
  else if n == 0x0C then ['\\', 'f']
  else if n == 0x0A then ['\\', 'n']
  else if n == 0x0D then ['\\', 'r']
  else if n == 0x09 then ['\\', 't']
  else if n == 0x0B then ['\\', 'v']
  else if n < 0x20 || n == 0x7F then ['\\', 'x', lowerhex n 1, lowerhex n 0]
  else if n < 0x10000 then
    ['\\', 'u', lowerhex n 3, lowerhex n 2, lowerhex n 1, lowerhex n 0]
  else
    ['\\', 'U', lowerhex n 7, lowerhex n 6, lowerhex n 5, lowerhex n 4,
      lowerhex n 3, lowerhex n 2, lowerhex n 1, lowerhex n 0]

/-- The function `strconv.Quote`. -/
def Quote (s : String) : String :=
  String.mk ('"' :: (s.data.flatMap quoteChar ++ ['"']))

/-- The method `(*strconv.NumError).Error`. -/
def NumError.Error (e : NumError) : String :=
  "strconv." ++ e.Func ++ ": parsing " ++ Quote e.Num ++ ": " ++
    (match e.Err with
     | .ErrSyntax => "invalid syntax"
     | .ErrRange => "value out of range")

/-- The text `parse error on line L, column C: ` of `(*csv.ParseError).Error`,
after `record on line S; ` when the record starts on another line. -/
def parseErrorAt (StartLine Line Column : Nat) : String :=
  (if StartLine = Line then "" else "record on line " ++ toString StartLine ++ "; ") ++
    "parse error on line " ++ toString Line ++ ", column " ++ toString Column ++ ": "

/-- The method `(*csv.ParseError).Error`. -/
def ParseError.Error (e : ParseError) : String :=
  match e.Err with
  | .ErrFieldCount => "record on line " ++ toString e.StartLine ++ ": wrong number of fields"
  | .ErrBareQuote l c => parseErrorAt e.StartLine l c ++ "bare \" in non-quoted-field"
  | .ErrQuote l c => parseErrorAt e.StartLine l c ++ "extraneous or missing \" in quoted-field"

/-- The message of an `error` (its method `Error`). -/
def Error.Error : Error → String
  | .ErrFileNotExist => "file not exists"
  | .ErrUnknownFile => "unknown filetype"
  | .csv e => e.Error
  | .errorString msg => msg
  | .pathError op path cause => op ++ " " ++ path ++ ": " ++ cause
  | .other tag => tag

/-! ## Standard library: `encoding/csv` -/

/-- What `(*csv.Reader).readRecord` parsed for one record, before the check of
the field count: the line the record starts on, and the fields or the error. -/
structure RawRecord where
  line : Nat
  res : Except Error (List String)

/-- The line handling of `(*csv.Reader).readLine`: `\r\n` at the end of a line
becomes `\n`, and a `\r` that ends the input is dropped. -/
def normalizeNL : List Char → List Char
  | [] => []
  | c :: cs =>
    if c = '\r' then
      match cs with
      | [] => []
      | d :: _ => if d = '\n' then normalizeNL cs else c :: normalizeNL cs
    else c :: normalizeNL cs

/-- Where the record parser stands: at the start of a field, inside an unquoted
field, inside a quoted field, inside a quoted field right after a line feed,
right after a quote inside a quoted field, or dropping the rest of a line. -/
inductive LexState where
  | fieldStart
  | unquoted
  | quoted
  | quotedEol
  | quoteSeen
  | skip
deriving DecidableEq, Repr

/-- The record parser of `encoding/csv` run over the whole (normalised) input:
the results of the successive calls of `readRecord` until `io.EOF`.  Empty
lines are skipped; a field is either unquoted (up to the next comma or the end
of the line, and then it may not hold a quote) or quoted (it ends at a quote
that is followed by a comma or the end of the line, `""` stands for a quote, and
it may span lines).  After an error the rest of the line is dropped.
`ln` and `col` are the line and the byte column of the next character (in the
state `quotedEol` still those after the line feed on its own line, as the
library only moves to the next line when there is one), `start` is the line the
current record starts on, `fields` the fields completed so far and `buf` the
field being read. -/
def lexRecords :
    List Char → LexState → Nat → Nat → Nat → List String → List Char → List RawRecord
  | [], st, ln, col, start, fields, buf =>
    match st with
    | .fieldStart => if fields.isEmpty then [] else [⟨start, .ok (fields ++ [""])⟩]
    | .unquoted => [⟨start, .ok (fields ++ [String.mk buf])⟩]
    | .quoted => [⟨start, .error (.csv ⟨start, .ErrQuote ln col⟩)⟩]
    | .quotedEol => [⟨start, .error (.csv ⟨start, .ErrQuote ln col⟩)⟩]
    | .quoteSeen => [⟨start, .ok (fields ++ [String.mk buf])⟩]
    | .skip => []
  | c :: cs, st, ln, col, start, fields, buf =>
    match st with
    | .fieldStart =>
      if c = '\n' then
        if fields.isEmpty then lexRecords cs .fieldStart (ln + 1) 1 (ln + 1) [] []
        else
          ⟨start, .ok (fields ++ [""])⟩ :: lexRecords cs .fieldStart (ln + 1) 1 (ln + 1) [] []
      else if c = '"' then lexRecords cs .quoted ln (col + 1) start fields []
      else if c = ',' then lexRecords cs .fieldStart ln (col + 1) start (fields ++ [""]) []
      else lexRecords cs .unquoted ln (col + c.utf8Size) start fields [c]
    | .unquoted =>
      if c = '\n' then
        ⟨start, .ok (fields ++ [String.mk buf])⟩ ::
          lexRecords cs .fieldStart (ln + 1) 1 (ln + 1) [] []
      else if c = '"' then
        ⟨start, .error (.csv ⟨start, .ErrBareQuote ln col⟩)⟩ ::
          lexRecords cs .skip ln (col + 1) start [] []
      else if c = ',' then
        lexRecords cs .fieldStart ln (col + 1) start (fields ++ [String.mk buf]) []
      else lexRecords cs .unquoted ln (col + c.utf8Size) start fields (buf ++ [c])
    | .quoted =>
      if c = '"' then lexRecords cs .quoteSeen ln (col + 1) start fields buf
      else if c = '\n' then lexRecords cs .quotedEol ln (col + 1) start fields (buf ++ [c])
      else lexRecords cs .quoted ln (col + c.utf8Size) start fields (buf ++ [c])
    | .quotedEol =>
      if c = '"' then lexRecords cs .quoteSeen (ln + 1) 2 start fields buf
      else if c = '\n' then lexRecords cs .quotedEol (ln + 1) 2 start fields (buf ++ [c])
      else lexRecords cs .quoted (ln + 1) (1 + c.utf8Size) start fields (buf ++ [c])
    | .quoteSeen =>
      if c = '"' then lexRecords cs .quoted ln (col + 1) start fields (buf ++ [c])
      else if c = ',' then
        lexRecords cs .fieldStart ln (col + 1) start (fields ++ [String.mk buf]) []
      else if c = '\n' then
        ⟨start, .ok (fields ++ [String.mk buf])⟩ ::
          lexRecords cs .fieldStart (ln + 1) 1 (ln + 1) [] []
      else
        ⟨start, .error (.csv ⟨start, .ErrQuote ln (col - 1)⟩)⟩ ::
          lexRecords cs .skip ln (col + c.utf8Size) start [] []
    | .skip =>
      if c = '\n' then lexRecords cs .fieldStart (ln + 1) 1 (ln + 1) [] []
      else lexRecords cs .skip ln (col + c.utf8Size) start [] []

/-- The records a `csv.NewReader` over a file of the given content goes through. -/
def rawRecords (content : String) : List RawRecord :=
  lexRecords (normalizeNL content.data) .fieldStart 1 1 1 [] []

/-- The end of `(*csv.Reader).Read`: the check of the field count.  With
`FieldsPerRecord = 0`, the value `csv.NewReader` leaves, the first record sets
the expected count, and a later record with another count is returned together
with the error `ErrFieldCount`.  The result is the record or the error, and the
new value of `FieldsPerRecord` (after an error the reader is not used again). -/
def fieldCheck (FieldsPerRecord : Nat) (raw : RawRecord) : Except Error (List String) × Nat :=
  match raw.res with
  | .error e => (.error e, FieldsPerRecord)
  | .ok dst =>
    if FieldsPerRecord > 0 then
      if dst.length ≠ FieldsPerRecord then
        (.error (.csv ⟨raw.line, .ErrFieldCount⟩), FieldsPerRecord)
      else (.ok dst, FieldsPerRecord)
    else (.ok dst, dst.length)

/-! ## The environment: file system and JSON decoder -/

/-- The three outcomes of `os.Stat`: the file information, an error for which
`os.IsNotExist` holds, or another error. -/
inductive StatResult where
  | info (isDir : Bool)
  | notExist
  | failure
deriving DecidableEq, Repr

/-- The file system as the package sees it: `os.Stat`, and `os.Open` followed by
reading the whole content. -/
structure FS where
  Stat : String → StatResult
  Open : String → Except Error String

/-- What a `json.NewDecoder` over a file does for the calls `Read` makes: the
error of the first `Token`, the results of the calls of `Decode` for the
elements that `More` announces, and the error of the last `Token`. -/
structure JsonDecoder where
  first : Option Error
  elems : List (Except Error Item)
  last : Option Error

/-! ## The package `reader` -/

/-- How a call of `Read` ends: it returns an `error` (`none` for `nil`), or
`log.Fatal` ends the process. -/
inductive Exit where
  | returned (err : Option Error)
  | fatal (err : Error)
deriving DecidableEq, Repr

/-- One invocation of an observer: the number of the row (or array element)
being dispatched, the position of the observer in `callbacks`, the item it
was given and the error it returned. -/
structure Call where
  row : Nat
  idx : Nat
  item : Item
  err : Option Error
deriving DecidableEq, Repr

/-- The outcome of `Read`: how it ended, the state of what the observers
captured, and the invocations of observers in chronological order. -/
structure Run (σ : Type) where
  result : Exit
  state : σ
  calls : List Call

/-- The function `fileExists`: `none` stands for the nil dereference of
`info.IsDir()` when `os.Stat` failed with an error other than "not exist". -/
def fileExists (fs : FS) (filename : String) : Option Bool :=
  match fs.Stat filename with
  | .notExist => some false
  | .failure => none
  | .info isDir => some (!isDir)

/-- The function `NewReaderFromPath`; `none` is a panic of `fileExists`. -/
def NewReaderFromPath (σ : Type) (fs : FS) (filepath : String) :
    Option (Except Error (Reader σ)) :=
  let filepath := TrimSpace filepath
  match fileExists fs filepath with
  | none => none
  | some false => some (.error .ErrFileNotExist)
  | some true =>
    if HasSuffix filepath extJSON then some (.ok (.json ⟨filepath, []⟩))
    else if HasSuffix filepath extCSV then some (.ok (.csv ⟨filepath, []⟩))
    else some (.error .ErrUnknownFile)

/-- The method `(*jsonReader).OnReadItem`. -/
def jsonReader.OnReadItem {σ : Type} (j : jsonReader σ) (fn : OnItemReadFn σ) :
    Option Error × jsonReader σ :=
  (none, { j with callbacks := j.callbacks ++ [fn] })

/-- The method `(*csvReader).OnReadItem`. -/
def csvReader.OnReadItem {σ : Type} (c : csvReader σ) (fn : OnItemReadFn σ) :
    Option Error × csvReader σ :=
  (none, { c with callbacks := c.callbacks ++ [fn] })

/-- The loop `for _, fn := range callbacks` of both `Read` methods: the
observers from position `idx` on are given `item`, and the first error stops
the loop.  The result is that error, the state, and the invocations made. -/
def notify {σ : Type} (row : Nat) (item : Item) :
    List (OnItemReadFn σ) → Nat → σ → Option Error × σ × List Call
  | [], _, s => (none, s, [])
  | fn :: fns, idx, s =>
    match fn item s with
    | (some e, s1) => (some e, s1, [⟨row, idx, item, some e⟩])
    | (none, s1) =>
      let r := notify row item fns (idx + 1) s1
      (r.1, r.2.1, ⟨row, idx, item, none⟩ :: r.2.2)

/-- The loop `for dec.More()` of `(*jsonReader).Read` and the code after it;
`n` numbers the elements. -/
def jsonLoop {σ : Type} (callbacks : List (OnItemReadFn σ)) (last : Option Error) :
    List (Except Error Item) → Nat → σ → Run σ
  | [], _, s =>
    match last with
    | some e => ⟨.fatal e, s, []⟩
    | none => ⟨.returned none, s, []⟩
  | el :: rest, n, s =>
    match el with
    | .error e => ⟨.fatal e, s, []⟩
    | .ok it =>
      match notify n it callbacks 0 s with
      | (some e, s1, calls) => ⟨.returned (some e), s1, calls⟩
      | (none, s1, calls) =>
        let r := jsonLoop callbacks last rest (n + 1) s1
        { r with calls := calls ++ r.calls }

/-- The method `(*jsonReader).Read`; `dec` is the behaviour of `encoding/json`
on the content of a file. -/
def jsonReader.Read {σ : Type} (j : jsonReader σ) (fs : FS) (dec : String → JsonDecoder)
    (s : σ) : Run σ :=
  match fs.Open j.file with
  | .error e => ⟨.returned (some e), s, []⟩
  | .ok content =>
    match (dec content).first with
    | some e => ⟨.fatal e, s, []⟩
    | none => jsonLoop j.callbacks (dec content).last (dec content).elems 1 s

/-- The loop `for i := 1; ; i++` of `(*csvReader).Read`, over the records the
CSV reader still has to go through; `fpr` is its `FieldsPerRecord`. -/
def csvLoop {σ : Type} (callbacks : List (OnItemReadFn σ)) :
    List RawRecord → Nat → Nat → σ → Run σ
  | [], _, _, s => ⟨.returned none, s, []⟩
  | raw :: rest, i, fpr, s =>
    match fieldCheck fpr raw with
    | (.error e, _) => ⟨.returned (some e), s, []⟩
    | (.ok record, fpr1) =>
      match record with
      | [f0, f1, f2] =>
        if i = 1 then csvLoop callbacks rest (i + 1) fpr1 s
        else
          match ParseInt f1 with
          | .error e =>
            ⟨.returned (some (.errorString
              ("error parce price at row " ++ toString i ++ ", err = " ++ e.Error))), s, []⟩
          | .ok price =>
            match ParseInt f2 with
            | .error e =>
              ⟨.returned (some (.errorString
                ("error parce rating at row " ++ toString i ++ ", err = " ++ e.Error))), s, []⟩
            | .ok rating =>
              match notify i ⟨f0, price, rating⟩ callbacks 0 s with
              | (some e, s1, calls) => ⟨.returned (some e), s1, calls⟩
              | (none, s1, calls) =>
                let r := csvLoop callbacks rest (i + 1) fpr1 s1
                { r with calls := calls ++ r.calls }
      | _ => ⟨.returned (some .ErrUnknownFile), s, []⟩

/-- The method `(*csvReader).Read`. -/
def csvReader.Read {σ : Type} (c : csvReader σ) (fs : FS) (s : σ) : Run σ :=
  match fs.Open c.file with
  | .error e => ⟨.returned (some e), s, []⟩
  | .ok content => csvLoop c.callbacks (rawRecords content) 1 0 s

/-! ## The observers of `cmd/main.go` -/

/-- The variables `topPrice` and `topRating` of `main`. -/
structure Tops where
  topPrice : Option Item
  topRating : Option Item
deriving DecidableEq, Repr

/-- The first observer of `main`. -/
def priceObserver : OnItemReadFn Tops := fun item t =>
  match t.topPrice with
  | none => (none, { t with topPrice := some item })
  | some top =>
    if top.Price < item.Price then (none, { t with topPrice := some item }) else (none, t)

/-- The second observer of `main`. -/
def ratingObserver : OnItemReadFn Tops := fun item t =>
  match t.topRating with
  | none => (none, { t with topRating := some item })
  | some top =>
    if top.Rating < item.Rating then (none, { t with topRating := some item }) else (none, t)

/-! ## Vocabulary of the statements -/

/-- An observer list never reports an error. -/
def NeverFail {σ : Type} (callbacks : List (OnItemReadFn σ)) : Prop :=
  ∀ fn ∈ callbacks, ∀ (it : Item) (s : σ), (fn it s).1 = none

/-- The record is a well-formed data row that stands for the item: three fields,
the first the product, the second and third accepted by `strconv.ParseInt` with
the price and the rating as values. -/
def RowOf (raw : RawRecord) (it : Item) : Prop :=
  ∃ p r : String, raw.res = .ok [it.Product, p, r] ∧
    ParseInt p = .ok it.Price ∧ ParseInt r = .ok it.Rating

/-- The record is not a well-formed data row. -/
def Offending (raw : RawRecord) : Prop := ∀ it : Item, ¬ RowOf raw it

/-- The invocations made when the items are dispatched one after the other,
the first as row `row`, each to `n` observers in the order of registration,
and no observer fails. -/
def dispatchLog (n : Nat) : Nat → List Item → List Call
  | _, [] => []
  | row, it :: its =>
    (List.range n).map (fun j => (⟨row, j, it, none⟩ : Call)) ++ dispatchLog n (row + 1) its

/-- The state after the items have been dispatched one after the other. -/
def feed {σ : Type} (callbacks : List (OnItemReadFn σ)) : List Item → σ → σ
  | [], s => s
  | it :: its, s => feed callbacks its (notify 0 it callbacks 0 s).2.1

/-- Chronological order of invocations: an earlier row, or the same row and an
observer registered earlier. -/
def Call.before (a b : Call) : Prop :=
  a.row < b.row ∨ (a.row = b.row ∧ a.idx < b.idx)

/-- No invocation in the list reported an error. -/
def Clean (calls : List Call) : Prop := ∀ c ∈ calls, c.err = none

/-- What holds of the log of every run: the invocations are in chronological
order, none is for a row before `first`, and an invocation that reported an
error is the last one and its error is what `Read` returned. -/
structure Chron (first : Nat) (result : Exit) (calls : List Call) : Prop where
  sorted : calls.Pairwise Call.before
  rows : ∀ c ∈ calls, first ≤ c.row
  fail : Clean calls ∨ ∃ pre c e, calls = pre ++ [c] ∧ Clean pre ∧ c.err = some e ∧
    result = .returned (some e)

/-- The substring relation on messages. -/
def Contains (msg part : String) : Prop := ∃ pre post : String, msg = pre ++ part ++ post

/-- The largest value of `key` in a non-empty sequence that starts with `b`. -/
def maxKey (key : Item → Int) (b : Item) (rest : List Item) : Int :=
  (rest.map key).foldl max (key b)

/-- The first item of the sequence whose `key` equals the maximum of `key` over
the sequence; `none` for the empty sequence. -/
def firstMax (key : Item → Int) : List Item → Option Item
  | [] => none
  | b :: rest => (b :: rest).find? (fun it => key it = maxKey key b rest)

/-- The selection the specification gives for `NewReaderFromPath`, on the
trimmed path `p`: `present` tells whether `p` exists and `isDir` whether it is a
directory. -/
def referenceSelection (σ : Type) (present isDir : Bool) (p : String) :
    Except Error (Reader σ) :=
  if !present || isDir then .error .ErrFileNotExist
  else if HasSuffix p ".json" then .ok (.json ⟨p, []⟩)
  else if HasSuffix p ".csv" then .ok (.csv ⟨p, []⟩)
  else .error .ErrUnknownFile

/-- The update both observers of `main` make to their variable: the item
replaces the current best when there is none or when its `key` is strictly
greater. -/
def track (key : Item → Int) (best : Option Item) (it : Item) : Option Item :=
  match best with
  | none => some it
  | some top => if key top < key it then some it else some top

/-- The two registrations `main` makes, on a CSV reader. -/
def csvReader.registerMain (c : csvReader Tops) : csvReader Tops :=
  ((c.OnReadItem priceObserver).2.OnReadItem ratingObserver).2

/-- The two registrations `main` makes, on a JSON reader. -/
def jsonReader.registerMain (j : jsonReader Tops) : jsonReader Tops :=
  ((j.OnReadItem priceObserver).2.OnReadItem ratingObserver).2

/-- A file system that holds one regular file. -/
def singleFile (name content : String) : FS where
  Stat := fun p => if p = name then .info false else .notExist
  Open := fun p =>
    if p = name then .ok content else .error (.pathError "open" p "no such file or directory")

/-- A file system that holds one regular file and nothing else: for a path that
goes through the file as if it were a directory `os.Stat` fails with `ENOTDIR`,
an error for which `os.IsNotExist` does not hold, and every other path does not
exist. -/
def fileOnly (name content : String) : FS where
  Stat := fun p =>
    if p = name then .info false
    else if p.data.take (name.length + 1) = name.data ++ ['/'] then .failure
    else .notExist
  Open := fun p =>
    if p = name then .ok content
    else if p.data.take (name.length + 1) = name.data ++ ['/'] then
      .error (.pathError "open" p "not a directory")
    else .error (.pathError "open" p "no such file or directory")

/-- An observer that reports the error `other "stop"` on every item and counts
its invocations. -/
def failingObserver : OnItemReadFn Nat := fun _ n => (some (.other "stop"), n + 1)

/-- An observer that never reports an error and counts its invocations. -/
def countingObserver : OnItemReadFn Nat := fun _ n => (none, n + 1)

/-! ## Lemmas on the dispatch to the observers -/

theorem notify_neverFail {σ : Type} (row : Nat) (it : Item) (fns : List (OnItemReadFn σ))
    (h : NeverFail fns) (idx : Nat) (s : σ) :
    (notify row it fns idx s).1 = none ∧
    (notify row it fns idx s).2.2 =
      (List.range' idx fns.length).map (fun j => (⟨row, j, it, none⟩ : Call)) := by
  induction fns generalizing idx s with
  | nil => simp [notify]
  | cons fn fns ih =>
    have hfn : (fn it s).1 = none := h fn (List.mem_cons_self _ _) it s
    have hrest : NeverFail fns := fun g hg => h g (List.mem_cons_of_mem _ hg)
    obtain ⟨h1, h2⟩ := ih hrest (idx + 1) (fn it s).2
    rcases hfs : fn it s with ⟨e, s1⟩
    rw [hfs] at hfn h1 h2
    simp only at hfn h1 h2
    subst hfn
    simp [notify, hfs, h1, h2, List.range']

theorem notify_state_row {σ : Type} (row row1 : Nat) (it : Item) (fns : List (OnItemReadFn σ))
    (idx idx1 : Nat) (s : σ) :
    (notify row it fns idx s).2.1 = (notify row1 it fns idx1 s).2.1 ∧
    (notify row it fns idx s).1 = (notify row1 it fns idx1 s).1 := by
  induction fns generalizing idx idx1 s with
  | nil => simp [notify]
  | cons fn fns ih =>
    rcases hfs : fn it s with ⟨e, s1⟩
    cases e with
    | some e => simp [notify, hfs]
    | none =>
      have := ih (idx + 1) (idx1 + 1) s1
      simp [notify, hfs, this]

/-! ## Lemmas on the loop of `csvReader.Read` -/

theorem csvLoop_rowOf {σ : Type} (cbs : List (OnItemReadFn σ)) (raw : RawRecord) (it : Item)
    (hr : RowOf raw it) (rest : List RawRecord) (i : Nat) (hi : 2 ≤ i) (s : σ) :
    csvLoop cbs (raw :: rest) i 3 s =
      match notify i it cbs 0 s with
      | (some e, s1, calls) => ⟨.returned (some e), s1, calls⟩
      | (none, s1, calls) =>
        { csvLoop cbs rest (i + 1) 3 s1 with
          calls := calls ++ (csvLoop cbs rest (i + 1) 3 s1).calls } := by
  obtain ⟨p, r, hres, hp, hrt⟩ := hr
  have hi1 : i ≠ 1 := by omega
  cases it with
  | mk prod price rating =>
    simp only at hres hp hrt
    simp [csvLoop, fieldCheck, hres, hp, hrt, hi1]

theorem csvLoop_rows {σ : Type} (cbs : List (OnItemReadFn σ)) (h : NeverFail cbs)
    (good : List RawRecord) (items : List Item) (hv : List.Forall₂ RowOf good items)
    (rest : List RawRecord) (i : Nat) (hi : 2 ≤ i) (s : σ) :
    (csvLoop cbs (good ++ rest) i 3 s).result =
        (csvLoop cbs rest (i + good.length) 3 (feed cbs items s)).result ∧
    (csvLoop cbs (good ++ rest) i 3 s).state =
        (csvLoop cbs rest (i + good.length) 3 (feed cbs items s)).state ∧
    (csvLoop cbs (good ++ rest) i 3 s).calls =
        dispatchLog cbs.length i items ++
          (csvLoop cbs rest (i + good.length) 3 (feed cbs items s)).calls := by
  induction hv generalizing i s with
  | nil => simp [dispatchLog, feed]
  | @cons raw it good items hr _ ih =>
    obtain ⟨h1, h2⟩ := notify_neverFail i it cbs h 0 s
    have hst := (notify_state_row i 0 it cbs 0 0 s).1
    rcases hn : notify i it cbs 0 s with ⟨e, s1, calls⟩
    rw [hn] at h1 h2 hst
    simp only at h1 h2 hst
    subst h1
    obtain ⟨r1, r2, r3⟩ := ih (i + 1) (by omega) s1
    have hlen : i + 1 + good.length = i + (raw :: good).length := by
      simp only [List.length_cons]; omega
    rw [List.cons_append, csvLoop_rowOf cbs raw it hr _ i hi s, hn]
    simp only [feed, dispatchLog, ← hst, ← hlen]
    refine ⟨r1, r2, ?_⟩
    rw [r3, h2, List.range_eq_range', List.append_assoc]

theorem csvLoop_offending {σ : Type} (cbs : List (OnItemReadFn σ)) (raw : RawRecord)
    (hr : Offending raw) (rest : List RawRecord) (i : Nat) (s : σ) :
    (∃ e, (csvLoop cbs (raw :: rest) i 3 s).result = .returned (some e)) ∧
    (csvLoop cbs (raw :: rest) i 3 s).state = s ∧
    (csvLoop cbs (raw :: rest) i 3 s).calls = [] ∨ i = 1 := by
  by_cases hi : i = 1
  · exact Or.inr hi
  left
  rcases hres : raw.res with e | dst
  · simp [csvLoop, fieldCheck, hres]
  · by_cases hlen : dst.length = 3
    · match dst, hlen with
      | [f0, f1, f2], _ =>
        rcases hp : ParseInt f1 with e1 | price
        · simp [csvLoop, fieldCheck, hres, hp, hi]
        · rcases hrt : ParseInt f2 with e2 | rating
          · simp [csvLoop, fieldCheck, hres, hp, hrt, hi]
          · exact absurd ⟨f1, f2, hres, hp, hrt⟩ (hr ⟨f0, price, rating⟩)
    · simp [csvLoop, fieldCheck, hres, hlen]

theorem csvLoop_badPrice {σ : Type} (cbs : List (OnItemReadFn σ)) (lk : Nat)
    (f0 f1 f2 : String) (e : NumError) (hp : ParseInt f1 = .error e) (tail : List RawRecord)
    (i : Nat) (hi : i ≠ 1) (s : σ) :
    csvLoop cbs (⟨lk, .ok [f0, f1, f2]⟩ :: tail) i 3 s =
      ⟨.returned (some (.errorString
        ("error parce price at row " ++ toString i ++ ", err = " ++ e.Error))), s, []⟩ := by
  simp [csvLoop, fieldCheck, hp, hi]

theorem csvLoop_badRating {σ : Type} (cbs : List (OnItemReadFn σ)) (lk : Nat)
    (f0 f1 f2 : String) (price : Int) (e : NumError) (hp : ParseInt f1 = .ok price)
    (hr : ParseInt f2 = .error e) (tail : List RawRecord) (i : Nat) (hi : i ≠ 1) (s : σ) :
    csvLoop cbs (⟨lk, .ok [f0, f1, f2]⟩ :: tail) i 3 s =
      ⟨.returned (some (.errorString
        ("error parce rating at row " ++ toString i ++ ", err = " ++ e.Error))), s, []⟩ := by
  simp [csvLoop, fieldCheck, hp, hr, hi]

theorem rows_split (rest : List RawRecord) :
    (∃ items, List.Forall₂ RowOf rest items) ∨
    (∃ good bad tail items, rest = good ++ bad :: tail ∧ List.Forall₂ RowOf good items ∧
      Offending bad) := by
  induction rest with
  | nil => exact Or.inl ⟨[], List.Forall₂.nil⟩
  | cons raw rest ih =>
    by_cases hr : ∃ it, RowOf raw it
    · obtain ⟨it, hit⟩ := hr
      rcases ih with ⟨items, hall⟩ | ⟨good, bad, tail, items, heq, hall, hbad⟩
      · exact Or.inl ⟨it :: items, List.Forall₂.cons hit hall⟩
      · exact Or.inr ⟨raw :: good, bad, tail, it :: items, by simp [heq],
          List.Forall₂.cons hit hall, hbad⟩
    · exact Or.inr ⟨[], raw, rest, [], rfl, List.Forall₂.nil, fun it hit => hr ⟨it, hit⟩⟩

theorem csvLoop_header {σ : Type} (cbs : List (OnItemReadFn σ)) (l : Nat) (hdr : List String)
    (hh : hdr.length = 3) (rest : List RawRecord) (s : σ) :
    csvLoop cbs (⟨l, .ok hdr⟩ :: rest) 1 0 s = csvLoop cbs rest 2 3 s := by
  match hdr, hh with
  | [f0, f1, f2], _ => simp [csvLoop, fieldCheck]

theorem csvLoop_header_count {σ : Type} (cbs : List (OnItemReadFn σ)) (l : Nat)
    (hdr : List String) (hh : hdr.length ≠ 3) (rest : List RawRecord) (s : σ) :
    csvLoop cbs (⟨l, .ok hdr⟩ :: rest) 1 0 s = ⟨.returned (some .ErrUnknownFile), s, []⟩ := by
  match hdr, hh with
  | [], _ => simp [csvLoop, fieldCheck]
  | [_], _ => simp [csvLoop, fieldCheck]
  | [_, _], _ => simp [csvLoop, fieldCheck]
  | [_, _, _], h => exact absurd rfl h
  | _ :: _ :: _ :: _ :: _, _ => simp [csvLoop, fieldCheck]

/-! ## The chronology of the invocations -/

theorem notify_chron {σ : Type} (row : Nat) (it : Item) (fns : List (OnItemReadFn σ))
    (idx : Nat) (s : σ) :
    (notify row it fns idx s).2.2.Pairwise (fun a b => a.idx < b.idx) ∧
    (∀ c ∈ (notify row it fns idx s).2.2, c.row = row ∧ idx ≤ c.idx) ∧
    (((notify row it fns idx s).1 = none ∧ Clean (notify row it fns idx s).2.2) ∨
      ∃ pre c e, (notify row it fns idx s).2.2 = pre ++ [c] ∧ Clean pre ∧ c.err = some e ∧
        (notify row it fns idx s).1 = some e) := by
  induction fns generalizing idx s with
  | nil => simp [notify, Clean]
  | cons fn fns ih =>
    rcases hfs : fn it s with ⟨e, s1⟩
    cases e with
    | some e =>
      simp only [notify, hfs]
      refine ⟨by simp, by simp, Or.inr ⟨[], ⟨row, idx, it, some e⟩, e, rfl, ?_, rfl, rfl⟩⟩
      intro c hc
      cases hc
    | none =>
      obtain ⟨h1, h2, h3⟩ := ih (idx + 1) s1
      simp only [notify, hfs]
      refine ⟨?_, ?_, ?_⟩
      · rw [List.pairwise_cons]
        refine ⟨fun c hc => ?_, h1⟩
        have := (h2 c hc).2
        simp only
        omega
      · intro c hc
        rcases List.mem_cons.1 hc with rfl | hc
        · simp
        · exact ⟨(h2 c hc).1, by have := (h2 c hc).2; omega⟩
      · rcases h3 with ⟨hn, hcl⟩ | ⟨pre, c, e, heq, hcl, hce, hr⟩
        · refine Or.inl ⟨hn, ?_⟩
          intro c hc
          rcases List.mem_cons.1 hc with rfl | hc
          · rfl
          · exact hcl c hc
        · refine Or.inr ⟨_ :: pre, c, e, by rw [heq]; rfl, ?_, hce, hr⟩
          intro c hc
          rcases List.mem_cons.1 hc with rfl | hc
          · rfl
          · exact hcl c hc

theorem chron_step {first : Nat} {σ : Type} (row : Nat) (hrow : first ≤ row) (it : Item)
    (fns : List (OnItemReadFn σ)) (s : σ) (e : Option Error) (s1 : σ) (calls : List Call)
    (hn : notify row it fns 0 s = (e, s1, calls)) (result : Exit) (more : List Call)
    (hmore : Chron (row + 1) result more) :
    (∀ err, e = some err → Chron first (.returned (some err)) calls) ∧
    (e = none → Chron first result (calls ++ more)) := by
  obtain ⟨h1, h2, h3⟩ := notify_chron row it fns 0 s
  rw [hn] at h1 h2 h3
  simp only at h1 h2 h3
  have hsorted : calls.Pairwise Call.before :=
    (List.pairwise_and_iff.2 ⟨h1, List.pairwise_iff_forall_sublist.2
      (fun {a b} hab => (h2 a (hab.subset (by simp))).1.trans
        (h2 b (hab.subset (by simp))).1.symm)⟩).imp
      (fun {a b} hab => Or.inr ⟨hab.2, hab.1⟩)
  have hrows : ∀ c ∈ calls, first ≤ c.row := fun c hc => by rw [(h2 c hc).1]; exact hrow
  constructor
  · intro err he
    subst he
    refine ⟨hsorted, hrows, ?_⟩
    rcases h3 with ⟨hn, _⟩ | ⟨pre, c, e, heq, hcl, hce, hr⟩
    · cases hn
    · cases hr
      exact Or.inr ⟨pre, c, _, heq, hcl, hce, rfl⟩
  · intro he
    subst he
    have hclean : Clean calls := by
      rcases h3 with ⟨_, hcl⟩ | ⟨pre, c, e, heq, hcl, hce, hr⟩
      · exact hcl
      · cases hr
    refine ⟨?_, ?_, ?_⟩
    · rw [List.pairwise_append]
      refine ⟨hsorted, hmore.sorted, fun a ha b hb => Or.inl ?_⟩
      have := hmore.rows b hb
      rw [(h2 a ha).1]
      omega
    · intro c hc
      rcases List.mem_append.1 hc with hc | hc
      · exact hrows c hc
      · have := hmore.rows c hc
        omega
    · rcases hmore.fail with hcl | ⟨pre, c, e, heq, hcl, hce, hr⟩
      · refine Or.inl (fun c hc => ?_)
        rcases List.mem_append.1 hc with hc | hc
        · exact hclean c hc
        · exact hcl c hc
      · refine Or.inr ⟨calls ++ pre, c, e, by rw [heq, List.append_assoc], ?_, hce, hr⟩
        intro c hc
        rcases List.mem_append.1 hc with hc | hc
        · exact hclean c hc
        · exact hcl c hc

theorem chron_nil (first : Nat) (result : Exit) : Chron first result [] :=
  { sorted := List.Pairwise.nil
    rows := fun _ h => by cases h
    fail := Or.inl (fun _ h => by cases h) }

theorem csvLoop_chron {σ : Type} (cbs : List (OnItemReadFn σ)) (raws : List RawRecord)
    (i fpr : Nat) (hi : 1 ≤ i) (s : σ) :
    Chron (max i 2) (csvLoop cbs raws i fpr s).result (csvLoop cbs raws i fpr s).calls := by
  induction raws generalizing i fpr s with
  | nil => exact chron_nil _ _
  | cons raw rest ih =>
    rw [csvLoop]
    split
    · exact chron_nil _ _
    · split
      · split
        · next h1 =>
          subst h1
          exact ih 2 _ (by omega) s
        · next h1 =>
          have h2 : 2 ≤ i := by omega
          have hmax : max i 2 = i := by omega
          split
          · exact chron_nil _ _
          · split
            · exact chron_nil _ _
            · split
              · next e s1 calls hn =>
                exact (chron_step i (by omega) _ cbs s _ s1 calls hn (.returned none) []
                  (chron_nil _ _)).1 e rfl
              · next s1 calls hn =>
                have hmax1 : max (i + 1) 2 = i + 1 := by omega
                have hrec := fun f => ih (i + 1) f (by omega) s1
                simp only [hmax1] at hrec
                exact (chron_step i (by omega) _ cbs s _ s1 calls hn _ _ (hrec _)).2 rfl
      · exact chron_nil _ _

theorem jsonLoop_chron {σ : Type} (cbs : List (OnItemReadFn σ)) (last : Option Error)
    (elems : List (Except Error Item)) (n : Nat) (s : σ) :
    Chron n (jsonLoop cbs last elems n s).result (jsonLoop cbs last elems n s).calls := by
  induction elems generalizing n s with
  | nil =>
    simp only [jsonLoop]
    split <;> exact chron_nil _ _
  | cons el rest ih =>
    simp only [jsonLoop]
    split
    · exact chron_nil _ _
    · split
      · next e s1 calls hn =>
        exact (chron_step n (le_refl n) _ cbs s _ s1 calls hn (.returned none) []
          (chron_nil _ _)).1 e rfl
      · next s1 calls hn =>
        exact (chron_step n (le_refl n) _ cbs s _ s1 calls hn _ _ (ih (n + 1) s1)).2 rfl

theorem csvRead_chron {σ : Type} (c : csvReader σ) (fs : FS) (s : σ) :
    Chron 2 (c.Read fs s).result (c.Read fs s).calls := by
  rw [csvReader.Read]
  split
  · exact chron_nil _ _
  · exact csvLoop_chron c.callbacks _ 1 0 (le_refl 1) s

theorem jsonRead_chron {σ : Type} (j : jsonReader σ) (fs : FS) (dec : String → JsonDecoder)
    (s : σ) : Chron 1 (j.Read fs dec s).result (j.Read fs dec s).calls := by
  rw [jsonReader.Read]
  split
  · exact chron_nil _ _
  · split
    · exact chron_nil _ _
    · exact jsonLoop_chron j.callbacks _ _ 1 s

theorem chron_failure {first : Nat} {result : Exit} {calls : List Call}
    (h : Chron first result calls) (call : Call) (e : Error) (hm : call ∈ calls)
    (he : call.err = some e) :
    result = .returned (some e) ∧
    calls.getLast? = some call ∧
    (∀ c ∈ calls, c.row < call.row ∨ (c.row = call.row ∧ c.idx ≤ call.idx)) ∧
    (call.row = first → (calls.filter (fun c => c.idx == call.idx)).length = 1) := by
  rcases h.fail with hcl | ⟨pre, c, e1, heq, hcl, hce, hr⟩
  · have := hcl call hm
    rw [he] at this
    cases this
  · have hcall : call = c := by
      rw [heq] at hm
      rcases List.mem_append.1 hm with hm | hm
      · have := hcl call hm
        rw [he] at this
        cases this
      · simpa using hm
    subst hcall
    have hee : e1 = e := by
      rw [he] at hce
      exact (Option.some.inj hce).symm
    subst hee
    have hsorted := h.sorted
    rw [heq, List.pairwise_append] at hsorted
    have hbefore : ∀ c ∈ pre, c.before call := fun c hc => hsorted.2.2 c hc call (by simp)
    refine ⟨hr, by simp [heq], ?_, ?_⟩
    · intro c hc
      rw [heq] at hc
      rcases List.mem_append.1 hc with hc | hc
      · rcases hbefore c hc with hlt | ⟨heq1, hlt⟩
        · exact Or.inl hlt
        · exact Or.inr ⟨heq1, le_of_lt hlt⟩
      · have : c = call := by simpa using hc
        subst this
        exact Or.inr ⟨rfl, le_refl _⟩
    · intro hfirst
      have hpre : pre.filter (fun c => c.idx == call.idx) = [] := by
        rw [List.filter_eq_nil_iff]
        intro c hc
        have hrow : first ≤ c.row := h.rows c (by rw [heq]; exact List.mem_append_left _ hc)
        rcases hbefore c hc with hlt | ⟨_, hlt⟩
        · omega
        · simp only [beq_iff_eq]
          omega
      rw [heq, List.filter_append, hpre]
      simp

/-! ## Lemmas on the loop of `jsonReader.Read` -/

theorem jsonLoop_items {σ : Type} (cbs : List (OnItemReadFn σ)) (h : NeverFail cbs)
    (items : List Item) (n : Nat) (s : σ) :
    (jsonLoop cbs none (items.map Except.ok) n s).result = .returned none ∧
    (jsonLoop cbs none (items.map Except.ok) n s).state = feed cbs items s ∧
    (jsonLoop cbs none (items.map Except.ok) n s).calls = dispatchLog cbs.length n items := by
  induction items generalizing n s with
  | nil => simp [jsonLoop, feed, dispatchLog]
  | cons it items ih =>
    obtain ⟨h1, h2⟩ := notify_neverFail n it cbs h 0 s
    have hst := (notify_state_row n 0 it cbs 0 0 s).1
    rcases hn : notify n it cbs 0 s with ⟨e, s1, calls⟩
    rw [hn] at h1 h2 hst
    simp only at h1 h2 hst
    subst h1
    obtain ⟨r1, r2, r3⟩ := ih (n + 1) s1
    simp only [List.map_cons, jsonLoop, hn, feed, dispatchLog, ← hst]
    refine ⟨r1, r2, ?_⟩
    rw [r3, h2, List.range_eq_range']

/-! ## Lemmas on the expected log and on the observers of `main` -/

theorem range_filter_eq (n j : Nat) (hj : j < n) :
    (List.range n).filter (fun k => k == j) = [j] := by
  induction n with
  | zero => omega
  | succ n ih =>
    rw [List.range_succ, List.filter_append]
    by_cases h : j < n
    · have hne : ¬ n = j := by omega
      simp [ih h, hne]
    · have hnj : n = j := by omega
      subst hnj
      have : (List.range n).filter (fun k => k == n) = [] := by
        rw [List.filter_eq_nil_iff]
        intro k hk
        have := List.mem_range.1 hk
        simp only [beq_iff_eq]
        omega
      simp [this]

theorem dispatchLog_observer (n : Nat) (row : Nat) (items : List Item) (j : Nat) (hj : j < n) :
    ((dispatchLog n row items).filter (fun c => c.idx == j)).map Call.item = items := by
  induction items generalizing row with
  | nil => simp [dispatchLog]
  | cons it items ih =>
    simp only [dispatchLog, List.filter_append, List.map_append, ih (row + 1)]
    rw [List.filter_map]
    have : ((fun c : Call => c.idx == j) ∘ fun k => (⟨row, k, it, none⟩ : Call)) =
        fun k => k == j := rfl
    rw [this, range_filter_eq n j hj]
    simp

theorem neverFail_main : NeverFail [priceObserver, ratingObserver] := by
  intro fn hfn it t
  simp only [List.mem_cons, List.mem_singleton, List.not_mem_nil, or_false] at hfn
  rcases hfn with rfl | rfl
  · unfold priceObserver
    split
    · rfl
    · split <;> rfl
  · unfold ratingObserver
    split
    · rfl
    · split <;> rfl

theorem priceObserver_eq (it : Item) (t : Tops) :
    priceObserver it t = (none, ⟨track Item.Price t.topPrice it, t.topRating⟩) := by
  rcases t with ⟨tp, tr⟩
  cases tp with
  | none => rfl
  | some top =>
    simp only [priceObserver, track]
    split <;> rfl

theorem ratingObserver_eq (it : Item) (t : Tops) :
    ratingObserver it t = (none, ⟨t.topPrice, track Item.Rating t.topRating it⟩) := by
  rcases t with ⟨tp, tr⟩
  cases tr with
  | none => rfl
  | some top =>
    simp only [ratingObserver, track]
    split <;> rfl

theorem feed_main (items : List Item) (t : Tops) :
    feed [priceObserver, ratingObserver] items t =
      ⟨items.foldl (track Item.Price) t.topPrice, items.foldl (track Item.Rating) t.topRating⟩ := by
  induction items generalizing t with
  | nil => simp [feed]
  | cons it items ih =>
    rw [feed, ih]
    simp [notify, priceObserver_eq, ratingObserver_eq]

theorem le_foldl_max (a : Int) (l : List Int) : a ≤ l.foldl max a := by
  induction l generalizing a with
  | nil => simp
  | cons x xs ih => exact le_trans (le_max_left a x) (ih (max a x))

theorem firstMax_cons (key : Item → Int) (b : Item) (rest : List Item) :
    firstMax key (b :: rest) = (b :: rest).find? (fun it => key it = maxKey key b rest) := rfl

theorem foldl_track (key : Item → Int) (b : Item) (rest : List Item) :
    rest.foldl (track key) (some b) = firstMax key (b :: rest) := by
  induction rest generalizing b with
  | nil => simp [firstMax, maxKey]
  | cons x xs ih =>
    simp only [List.foldl_cons, track]
    by_cases hlt : key b < key x
    · rw [if_pos hlt, ih x]
      have hM : maxKey key b (x :: xs) = maxKey key x xs := by
        simp only [maxKey, List.map_cons, List.foldl_cons]
        rw [max_eq_right (le_of_lt hlt)]
      have hge : key x ≤ maxKey key x xs := le_foldl_max _ _
      have hne : ¬ key b = maxKey key x xs := by omega
      rw [firstMax_cons key b, firstMax_cons key x, hM]
      exact (List.find?_cons_of_neg _ (by simpa using hne)).symm
    · rw [if_neg hlt, ih b]
      have hle : key x ≤ key b := by omega
      have hM : maxKey key b (x :: xs) = maxKey key b xs := by
        simp only [maxKey, List.map_cons, List.foldl_cons]
        rw [max_eq_left hle]
      have hge : key b ≤ maxKey key b xs := le_foldl_max _ _
      rw [firstMax_cons key b xs, firstMax_cons key b (x :: xs), hM]
      by_cases hb : key b = maxKey key b xs
      · rw [List.find?_cons_of_pos _ (by simpa using hb)]
        exact (List.find?_cons_of_pos _ (by simpa using hb)).symm
      · have hx : ¬ key x = maxKey key b xs := by omega
        rw [List.find?_cons_of_neg _ (by simpa using hb)]
        have h1 : List.find? (fun it => decide (key it = maxKey key b xs)) (b :: x :: xs) =
            List.find? (fun it => decide (key it = maxKey key b xs)) (x :: xs) :=
          List.find?_cons_of_neg _ (by simpa using hb)
        rw [h1]
        exact (List.find?_cons_of_neg _ (by simpa using hx)).symm

theorem feed_main_firstMax (items : List Item) :
    feed [priceObserver, ratingObserver] items ⟨none, none⟩ =
      ⟨firstMax Item.Price items, firstMax Item.Rating items⟩ := by
  rw [feed_main]
  cases items with
  | nil => simp [firstMax]
  | cons b rest =>
    simp only [List.foldl_cons, track, foldl_track]

/-! ## The tabular reader -/

/-- C1 (as amended): for every file whose records are a first row of exactly 3
fields followed by N rows of 3 fields whose second and third fields
`strconv.ParseInt` accepts, and every list of observers that never report an
error (the empty list included), `csvReader.Read` returns nil, the log of
invocations is exactly the N items in file order, each given to the observers in
the order of registration, and so every observer receives exactly the N items
in file order. -/
theorem csvRead_dispatches_rows {σ : Type} (c : csvReader σ) (fs : FS) (content : String)
    (l : Nat) (hdr : List String) (rows : List RawRecord) (items : List Item) (s : σ)
    (hopen : fs.Open c.file = .ok content)
    (hrec : rawRecords content = ⟨l, .ok hdr⟩ :: rows)
    (hhdr : hdr.length = 3)
    (hrows : List.Forall₂ RowOf rows items)
    (hobs : NeverFail c.callbacks) :
    (c.Read fs s).result = .returned none ∧
    (c.Read fs s).calls = dispatchLog c.callbacks.length 2 items ∧
    (c.Read fs s).state = feed c.callbacks items s ∧
    (∀ j, j < c.callbacks.length →
      (((c.Read fs s).calls.filter (fun call => call.idx == j)).map Call.item = items)) := by
  have hloop := csvLoop_rows c.callbacks hobs rows items hrows [] 2 (le_refl 2) s
  simp only [List.append_nil, csvLoop] at hloop
  have hread : c.Read fs s = csvLoop c.callbacks rows 2 3 s := by
    rw [csvReader.Read, hopen]
    simp only [hrec]
    exact csvLoop_header c.callbacks l hdr hhdr rows s
  rw [hread]
  refine ⟨hloop.1, hloop.2.2, hloop.2.1, fun j hj => ?_⟩
  rw [hloop.2.2]
  exact dispatchLog_observer _ _ _ j hj

/-- C1, an instance: a three-field header, the rows `A,10,5` and `B,20,3`, and
the two observers of `main`. -/
theorem csvRead_dispatches_rows_witness :
    (((csvReader.mk "db.csv" []).registerMain).Read
        (singleFile "db.csv" "name,price,rating\nA,10,5\nB,20,3\n") ⟨none, none⟩).result
      = .returned none ∧
    (((csvReader.mk "db.csv" []).registerMain).Read
        (singleFile "db.csv" "name,price,rating\nA,10,5\nB,20,3\n") ⟨none, none⟩).calls
      = [⟨2, 0, ⟨"A", 10, 5⟩, none⟩, ⟨2, 1, ⟨"A", 10, 5⟩, none⟩,
         ⟨3, 0, ⟨"B", 20, 3⟩, none⟩, ⟨3, 1, ⟨"B", 20, 3⟩, none⟩] :=
  have h := csvRead_dispatches_rows ((csvReader.mk "db.csv" []).registerMain)
    (singleFile "db.csv" "name,price,rating\nA,10,5\nB,20,3\n")
    "name,price,rating\nA,10,5\nB,20,3\n" 1 ["name", "price", "rating"]
    [⟨2, .ok ["A", "10", "5"]⟩, ⟨3, .ok ["B", "20", "3"]⟩] [⟨"A", 10, 5⟩, ⟨"B", 20, 3⟩]
    ⟨none, none⟩ rfl rfl rfl
    (List.Forall₂.cons ⟨"10", "5", rfl, rfl, rfl⟩
      (List.Forall₂.cons ⟨"20", "3", rfl, rfl, rfl⟩ List.Forall₂.nil))
    neverFail_main
  ⟨h.1, h.2.1⟩

/-- C1 fails as stated: with the one-field first row `id` the data row `A,10,5` is
well formed, yet `Read` returns `ErrUnknownFile` and dispatches nothing; and the
base-10 integer `9223372036854775808` in the price field makes `Read` return an
error, because it does not fit `int64`. -/
theorem csvRead_dispatches_rows_counterexample :
    rawRecords "id\nA,10,5\n" = [⟨1, .ok ["id"]⟩, ⟨2, .ok ["A", "10", "5"]⟩] ∧
    RowOf ⟨2, .ok ["A", "10", "5"]⟩ ⟨"A", 10, 5⟩ ∧
    ((csvReader.mk "db.csv" ([] : List (OnItemReadFn Unit))).Read
        (singleFile "db.csv" "id\nA,10,5\n") ()).result = .returned (some .ErrUnknownFile) ∧
    ((csvReader.mk "db.csv" ([] : List (OnItemReadFn Unit))).Read
        (singleFile "db.csv" "id\nA,10,5\n") ()).calls = [] ∧
    ((csvReader.mk "db.csv" ([] : List (OnItemReadFn Unit))).Read
        (singleFile "db.csv" "a,b,c\nA,9223372036854775808,5\n") ()).result =
      .returned (some (.errorString ("error parce price at row 2, err = " ++
        "strconv.ParseInt: parsing \"9223372036854775808\": value out of range"))) :=
  ⟨rfl, ⟨"10", "5", rfl, rfl, rfl⟩, rfl, rfl, rfl⟩

/-- C2: the first observer failure stops the read and is returned unchanged.
For both readers, every environment, every observer list and every initial
state: if some invocation of an observer reported the error `e`, then `Read`
returned exactly `e`, that invocation is the last one of the run, every
invocation of the run is for an earlier row, or for the same row and an observer
registered no later (so no observer registered after it was invoked for that
record and none for a later record), and when the failure is on the first
record (row 2 of a tabular file, element 1 of an array) the failing observer
was invoked exactly once. -/
theorem read_stops_at_first_observer_failure {σ : Type} (fs : FS) (dec : String → JsonDecoder)
    (c : csvReader σ) (j : jsonReader σ) (s : σ) (call : Call) (e : Error)
    (he : call.err = some e) :
    (call ∈ (c.Read fs s).calls →
      (c.Read fs s).result = .returned (some e) ∧
      (c.Read fs s).calls.getLast? = some call ∧
      (∀ c1 ∈ (c.Read fs s).calls,
        c1.row < call.row ∨ (c1.row = call.row ∧ c1.idx ≤ call.idx)) ∧
      (call.row = 2 →
        ((c.Read fs s).calls.filter (fun c1 => c1.idx == call.idx)).length = 1)) ∧
    (call ∈ (j.Read fs dec s).calls →
      (j.Read fs dec s).result = .returned (some e) ∧
      (j.Read fs dec s).calls.getLast? = some call ∧
      (∀ c1 ∈ (j.Read fs dec s).calls,
        c1.row < call.row ∨ (c1.row = call.row ∧ c1.idx ≤ call.idx)) ∧
      (call.row = 1 →
        ((j.Read fs dec s).calls.filter (fun c1 => c1.idx == call.idx)).length = 1)) :=
  ⟨fun hm => chron_failure (csvRead_chron c fs s) call e hm he,
   fun hm => chron_failure (jsonRead_chron j fs dec s) call e hm he⟩

/-- C2, an instance: a counting observer, a failing observer and a second
counting observer read two rows (two elements); the failing observer is invoked
once, on the first record, the observer after it never, and `Read` returns its
error. -/
theorem read_stops_at_first_observer_failure_witness :
    ((csvReader.mk "db" [countingObserver, failingObserver, countingObserver]).Read
        (singleFile "db" "name,price,rating\nA,10,5\nB,20,3\n") 0).calls =
      [⟨2, 0, ⟨"A", 10, 5⟩, none⟩, ⟨2, 1, ⟨"A", 10, 5⟩, some (.other "stop")⟩] ∧
    ((csvReader.mk "db" [countingObserver, failingObserver, countingObserver]).Read
        (singleFile "db" "name,price,rating\nA,10,5\nB,20,3\n") 0).result =
      .returned (some (.other "stop")) ∧
    (((csvReader.mk "db" [countingObserver, failingObserver, countingObserver]).Read
        (singleFile "db" "name,price,rating\nA,10,5\nB,20,3\n") 0).calls.filter
          (fun c1 => c1.idx == 1)).length = 1 :=
  have hc : ((csvReader.mk "db" [countingObserver, failingObserver, countingObserver]).Read
        (singleFile "db" "name,price,rating\nA,10,5\nB,20,3\n") 0).calls =
      [⟨2, 0, ⟨"A", 10, 5⟩, none⟩, ⟨2, 1, ⟨"A", 10, 5⟩, some (.other "stop")⟩] := rfl
  have h := (read_stops_at_first_observer_failure
    (singleFile "db" "name,price,rating\nA,10,5\nB,20,3\n")
    (fun _ => ⟨none, [.ok ⟨"A", 10, 5⟩, .ok ⟨"B", 20, 3⟩], none⟩)
    (csvReader.mk "db" [countingObserver, failingObserver, countingObserver])
    (jsonReader.mk "db" [countingObserver, failingObserver, countingObserver])
    0 ⟨2, 1, ⟨"A", 10, 5⟩, some (.other "stop")⟩ (.other "stop") rfl).1 (by rw [hc]; simp)
  ⟨hc, h.1, h.2.2.2 rfl⟩

/-- C3, at the failing input: on the file `name,price,rating` / `A,10`, whose
second row has 2 fields, `csvReader.Read` returns the error `ErrFieldCount` of
the CSV library for line 2, which is not `ErrUnknownFile`; no observer is
invoked.  The check `len(record) != 3` of `Read` is only reached by the first
row. -/
theorem csvRead_short_row_returns_field_count_error :
    rawRecords "name,price,rating\nA,10\n" =
      [⟨1, .ok ["name", "price", "rating"]⟩, ⟨2, .ok ["A", "10"]⟩] ∧
    ((csvReader.mk "db.csv" [countingObserver]).Read
        (singleFile "db.csv" "name,price,rating\nA,10\n") 0).result =
      .returned (some (.csv ⟨2, .ErrFieldCount⟩)) ∧
    ((csvReader.mk "db.csv" [countingObserver]).Read
        (singleFile "db.csv" "name,price,rating\nA,10\n") 0).result ≠
      .returned (some .ErrUnknownFile) ∧
    ((csvReader.mk "db.csv" [countingObserver]).Read
        (singleFile "db.csv" "name,price,rating\nA,10\n") 0).calls = [] ∧
    ((csvReader.mk "db.csv" [countingObserver]).Read
        (singleFile "db.csv" "name,price,rating\nA,10,5,x\n") 0).result =
      .returned (some (.csv ⟨2, .ErrFieldCount⟩)) :=
  ⟨rfl, rfl, by decide, rfl, rfl⟩

/-- C4 (as amended): for every file whose first row has exactly 3 fields and
whose first offending row is a 3-field data row of which `strconv.ParseInt`
rejects the price or the rating, and every list of observers that never report
an error, `csvReader.Read` returns an error made by `fmt.Errorf` whose message
contains the 1-based index of that row (the header being row 1), and the
invocations are exactly those for the rows before it: none for that row and
none for a later row. -/
theorem csvRead_unparsable_row {σ : Type} (c : csvReader σ) (fs : FS) (content : String)
    (l : Nat) (hdr : List String) (good : List RawRecord) (items : List Item) (lk : Nat)
    (f0 f1 f2 : String) (tail : List RawRecord) (s : σ)
    (hopen : fs.Open c.file = .ok content)
    (hrec : rawRecords content = ⟨l, .ok hdr⟩ :: (good ++ ⟨lk, .ok [f0, f1, f2]⟩ :: tail))
    (hhdr : hdr.length = 3)
    (hgood : List.Forall₂ RowOf good items)
    (hobs : NeverFail c.callbacks)
    (hbad : (∃ e, ParseInt f1 = .error e) ∨ (∃ e, ParseInt f2 = .error e)) :
    ∃ msg, (c.Read fs s).result = .returned (some (.errorString msg)) ∧
      Contains (Error.Error (.errorString msg)) (toString (good.length + 2)) ∧
      (c.Read fs s).calls = dispatchLog c.callbacks.length 2 items := by
  have hread : c.Read fs s =
      csvLoop c.callbacks (good ++ ⟨lk, .ok [f0, f1, f2]⟩ :: tail) 2 3 s := by
    rw [csvReader.Read, hopen]
    simp only [hrec]
    exact csvLoop_header c.callbacks l hdr hhdr _ s
  obtain ⟨h1, _, h3⟩ := csvLoop_rows c.callbacks hobs good items hgood
    (⟨lk, .ok [f0, f1, f2]⟩ :: tail) 2 (le_refl 2) s
  have hk : 2 + good.length = good.length + 2 := Nat.add_comm _ _
  have hne : good.length + 2 ≠ 1 := by omega
  rw [hread, h1, h3, hk]
  rcases hp : ParseInt f1 with e1 | price
  · rw [csvLoop_badPrice c.callbacks lk f0 f1 f2 e1 hp tail _ hne]
    refine ⟨_, rfl, ⟨"error parce price at row ", ", err = " ++ e1.Error, ?_⟩, by simp⟩
    simp only [Error.Error, String.append_assoc]
  · rcases hbad with ⟨e, he⟩ | ⟨e2, hrt⟩
    · rw [hp] at he
      cases he
    · rw [csvLoop_badRating c.callbacks lk f0 f1 f2 price e2 hp hrt tail _ hne]
      refine ⟨_, rfl, ⟨"error parce rating at row ", ", err = " ++ e2.Error, ?_⟩, by simp⟩
      simp only [Error.Error, String.append_assoc]

/-- C4, an instance: the rating `x` in row 3 of a file with a three-field header,
read with the two observers of `main`. -/
theorem csvRead_unparsable_row_witness :
    ∃ msg, (((csvReader.mk "db.csv" []).registerMain).Read
        (singleFile "db.csv" "name,price,rating\nA,10,5\nB,20,x\nC,1,1\n")
        ⟨none, none⟩).result = .returned (some (.errorString msg)) ∧
      Contains (Error.Error (.errorString msg)) "3" ∧
      (((csvReader.mk "db.csv" []).registerMain).Read
        (singleFile "db.csv" "name,price,rating\nA,10,5\nB,20,x\nC,1,1\n")
        ⟨none, none⟩).calls = [⟨2, 0, ⟨"A", 10, 5⟩, none⟩, ⟨2, 1, ⟨"A", 10, 5⟩, none⟩] :=
  csvRead_unparsable_row ((csvReader.mk "db.csv" []).registerMain)
    (singleFile "db.csv" "name,price,rating\nA,10,5\nB,20,x\nC,1,1\n")
    "name,price,rating\nA,10,5\nB,20,x\nC,1,1\n" 1 ["name", "price", "rating"]
    [⟨2, .ok ["A", "10", "5"]⟩] [⟨"A", 10, 5⟩] 3 "B" "20" "x" [⟨4, .ok ["C", "1", "1"]⟩]
    ⟨none, none⟩ rfl rfl rfl
    (List.Forall₂.cons ⟨"10", "5", rfl, rfl, rfl⟩ List.Forall₂.nil)
    neverFail_main (Or.inr ⟨_, rfl⟩)

/-- C4 fails as stated: after the one-field first row `header` the first data row
`A,x,5` has 3 fields and a price that is no integer, yet `Read` returns
`ErrUnknownFile`, whose message does not contain the row index 2; and when an
observer reports an error on an earlier row, that error is what `Read`
returns. -/
theorem csvRead_unparsable_row_counterexample :
    rawRecords "header\nA,x,5\n" = [⟨1, .ok ["header"]⟩, ⟨2, .ok ["A", "x", "5"]⟩] ∧
    (∃ e, ParseInt "x" = .error e) ∧
    ((csvReader.mk "db.csv" [countingObserver]).Read
        (singleFile "db.csv" "header\nA,x,5\n") 0).result = .returned (some .ErrUnknownFile) ∧
    ¬ Contains (Error.Error .ErrUnknownFile) "2" ∧
    ((csvReader.mk "db.csv" [failingObserver]).Read
        (singleFile "db.csv" "a,b,c\nA,10,5\nB,x,3\n") 0).result =
      .returned (some (.other "stop")) := by
  refine ⟨rfl, ⟨_, rfl⟩, rfl, ?_, rfl⟩
  rintro ⟨pre, post, h⟩
  have hmem : '2' ∈ (pre ++ "2" ++ post).data := by simp [String.data_append]
  rw [← h] at hmem
  revert hmem
  decide

/-- C5 (as amended): the first row is never parsed and never dispatched, but its
field count is checked.  For every file whose first row does not have exactly 3
fields, `csvReader.Read` returns `ErrUnknownFile`, invokes no observer and
leaves the state as it was, whatever follows the first row.  For every two
files whose first rows both have exactly 3 fields and whose later records are
the same, `csvReader.Read` gives the same result, the same final state and the
same invocations of observers, whatever the contents of the two first rows; and
no invocation is for row 1. -/
theorem csvRead_same_for_three_field_headers {σ : Type} (c : csvReader σ) (fs1 fs2 : FS)
    (content1 content2 : String) (l1 l2 : Nat) (hdr1 hdr2 : List String)
    (rest : List RawRecord) (s : σ)
    (hopen1 : fs1.Open c.file = .ok content1)
    (hopen2 : fs2.Open c.file = .ok content2)
    (hrec1 : rawRecords content1 = ⟨l1, .ok hdr1⟩ :: rest)
    (hrec2 : rawRecords content2 = ⟨l2, .ok hdr2⟩ :: rest) :
    (hdr1.length ≠ 3 →
      (c.Read fs1 s).result = .returned (some .ErrUnknownFile) ∧
      (c.Read fs1 s).state = s ∧
      (c.Read fs1 s).calls = []) ∧
    (hdr1.length = 3 → hdr2.length = 3 →
      (c.Read fs1 s).result = (c.Read fs2 s).result ∧
      (c.Read fs1 s).state = (c.Read fs2 s).state ∧
      (c.Read fs1 s).calls = (c.Read fs2 s).calls ∧
      (∀ call ∈ (c.Read fs1 s).calls, 2 ≤ call.row)) := by
  constructor
  · intro hhdr1
    have hr1 : c.Read fs1 s = ⟨.returned (some .ErrUnknownFile), s, []⟩ := by
      rw [csvReader.Read, hopen1]
      simp only [hrec1]
      exact csvLoop_header_count c.callbacks l1 hdr1 hhdr1 rest s
    rw [hr1]
    exact ⟨rfl, rfl, rfl⟩
  · intro hhdr1 hhdr2
    have hr1 : c.Read fs1 s = csvLoop c.callbacks rest 2 3 s := by
      rw [csvReader.Read, hopen1]
      simp only [hrec1]
      exact csvLoop_header c.callbacks l1 hdr1 hhdr1 rest s
    have hr2 : c.Read fs2 s = csvLoop c.callbacks rest 2 3 s := by
      rw [csvReader.Read, hopen2]
      simp only [hrec2]
      exact csvLoop_header c.callbacks l2 hdr2 hhdr2 rest s
    refine ⟨by rw [hr1, hr2], by rw [hr1, hr2], by rw [hr1, hr2], ?_⟩
    exact (csvRead_chron c fs1 s).rows

/-- C5, two instances: the headers `name,price,rating` and `x,,"y z"` before the
same two rows leave the same state; the header `a,b` of two fields before
the same two rows makes `Read` return `ErrUnknownFile`. -/
theorem csvRead_same_for_three_field_headers_witness :
    (((csvReader.mk "db.csv" []).registerMain).Read
        (singleFile "db.csv" "name,price,rating\nA,10,5\nB,20,3\n") ⟨none, none⟩).state =
    (((csvReader.mk "db.csv" []).registerMain).Read
        (singleFile "db.csv" "x,,\"y z\"\nA,10,5\nB,20,3\n") ⟨none, none⟩).state ∧
    (((csvReader.mk "db.csv" []).registerMain).Read
        (singleFile "db.csv" "a,b\nA,10,5\nB,20,3\n") ⟨none, none⟩).result =
      .returned (some .ErrUnknownFile) :=
  ⟨((csvRead_same_for_three_field_headers ((csvReader.mk "db.csv" []).registerMain)
      (singleFile "db.csv" "name,price,rating\nA,10,5\nB,20,3\n")
      (singleFile "db.csv" "x,,\"y z\"\nA,10,5\nB,20,3\n")
      "name,price,rating\nA,10,5\nB,20,3\n" "x,,\"y z\"\nA,10,5\nB,20,3\n" 1 1
      ["name", "price", "rating"] ["x", "", "y z"]
      [⟨2, .ok ["A", "10", "5"]⟩, ⟨3, .ok ["B", "20", "3"]⟩] ⟨none, none⟩
      rfl rfl rfl rfl).2 rfl rfl).2.1,
   ((csvRead_same_for_three_field_headers ((csvReader.mk "db.csv" []).registerMain)
      (singleFile "db.csv" "a,b\nA,10,5\nB,20,3\n")
      (singleFile "db.csv" "a,b\nA,10,5\nB,20,3\n")
      "a,b\nA,10,5\nB,20,3\n" "a,b\nA,10,5\nB,20,3\n" 1 1
      ["a", "b"] ["a", "b"]
      [⟨2, .ok ["A", "10", "5"]⟩, ⟨3, .ok ["B", "20", "3"]⟩] ⟨none, none⟩
      rfl rfl rfl rfl).1 (by decide)).1⟩

/-- C5 fails as stated: the files `a,b,c` / `A,10,5` and `header` / `A,10,5`
differ only in the first row, yet `Read` returns nil and dispatches the item for
the first and returns `ErrUnknownFile` and dispatches nothing for the second. -/
theorem csvRead_header_field_count_matters :
    rawRecords "a,b,c\nA,10,5\n" = [⟨1, .ok ["a", "b", "c"]⟩, ⟨2, .ok ["A", "10", "5"]⟩] ∧
    rawRecords "header\nA,10,5\n" = [⟨1, .ok ["header"]⟩, ⟨2, .ok ["A", "10", "5"]⟩] ∧
    ((csvReader.mk "db.csv" [countingObserver]).Read
        (singleFile "db.csv" "a,b,c\nA,10,5\n") 0).result = .returned none ∧
    ((csvReader.mk "db.csv" [countingObserver]).Read
        (singleFile "db.csv" "a,b,c\nA,10,5\n") 0).calls = [⟨2, 0, ⟨"A", 10, 5⟩, none⟩] ∧
    ((csvReader.mk "db.csv" [countingObserver]).Read
        (singleFile "db.csv" "header\nA,10,5\n") 0).result = .returned (some .ErrUnknownFile) ∧
    ((csvReader.mk "db.csv" [countingObserver]).Read
        (singleFile "db.csv" "header\nA,10,5\n") 0).calls = [] :=
  ⟨rfl, rfl, rfl, rfl, rfl, rfl⟩

/-- C10: a failing `csvReader.Read` dispatches a well-defined prefix.  For every
file whose first row has 3 fields and every list of observers that never report
an error: if `Read` returns an error `e`, then the records after the first row
split into well-formed rows (file rows 2 to k-1), an offending record (file row
k: a CSV error, a wrong field count, or a price or rating that `ParseInt`
rejects) at which `e` is raised, and the rest; the invocations are exactly those
for the items of rows 2 to k-1 in file order, so every observer received
exactly these items and nothing from row k or later. -/
theorem csvRead_failure_dispatches_prefix {σ : Type} (c : csvReader σ) (fs : FS)
    (content : String) (l : Nat) (hdr : List String) (rest : List RawRecord) (s : σ)
    (e : Error)
    (hopen : fs.Open c.file = .ok content)
    (hrec : rawRecords content = ⟨l, .ok hdr⟩ :: rest)
    (hhdr : hdr.length = 3)
    (hobs : NeverFail c.callbacks)
    (hfail : (c.Read fs s).result = .returned (some e)) :
    ∃ good bad tail items, rest = good ++ bad :: tail ∧ List.Forall₂ RowOf good items ∧
      Offending bad ∧
      (csvLoop c.callbacks (bad :: tail) (good.length + 2) 3 (feed c.callbacks items s)).result =
        .returned (some e) ∧
      (c.Read fs s).calls = dispatchLog c.callbacks.length 2 items ∧
      (∀ j, j < c.callbacks.length →
        ((c.Read fs s).calls.filter (fun call => call.idx == j)).map Call.item = items) := by
  have hread : c.Read fs s = csvLoop c.callbacks rest 2 3 s := by
    rw [csvReader.Read, hopen]
    simp only [hrec]
    exact csvLoop_header c.callbacks l hdr hhdr rest s
  rw [hread] at hfail ⊢
  rcases rows_split rest with ⟨items, hall⟩ | ⟨good, bad, tail, items, heq, hall, hbad⟩
  · have h := (csvLoop_rows c.callbacks hobs rest items hall [] 2 (le_refl 2) s).1
    simp only [List.append_nil, csvLoop] at h
    rw [h] at hfail
    cases hfail
  · obtain ⟨h1, _, h3⟩ := csvLoop_rows c.callbacks hobs good items hall (bad :: tail) 2
      (le_refl 2) s
    have hk : 2 + good.length = good.length + 2 := Nat.add_comm _ _
    rw [hk] at h1 h3
    rcases csvLoop_offending c.callbacks bad hbad tail (good.length + 2)
      (feed c.callbacks items s) with ⟨_, _, hcalls⟩ | hone
    · rw [hcalls, List.append_nil] at h3
      subst heq
      refine ⟨good, bad, tail, items, rfl, hall, hbad, ?_, h3, fun j hj => ?_⟩
      · rw [← h1]
        exact hfail
      · rw [h3]
        exact dispatchLog_observer _ _ _ j hj
    · omega

/-- C10, an instance: the file `name,price,rating` / `A,10,5` / `B,20` / `C,1,1`
read with the two observers of `main` fails at row 3. -/
theorem csvRead_failure_dispatches_prefix_witness :
    ∃ good bad tail items,
      [(⟨2, .ok ["A", "10", "5"]⟩ : RawRecord), ⟨3, .ok ["B", "20"]⟩, ⟨4, .ok ["C", "1", "1"]⟩] =
        good ++ bad :: tail ∧
      List.Forall₂ RowOf good items ∧ Offending bad ∧
      (csvLoop ((csvReader.mk "db.csv" []).registerMain).callbacks (bad :: tail)
        (good.length + 2) 3
        (feed ((csvReader.mk "db.csv" []).registerMain).callbacks items ⟨none, none⟩)).result =
        .returned (some (.csv ⟨3, .ErrFieldCount⟩)) ∧
      (((csvReader.mk "db.csv" []).registerMain).Read
        (singleFile "db.csv" "name,price,rating\nA,10,5\nB,20\nC,1,1\n") ⟨none, none⟩).calls =
        dispatchLog ((csvReader.mk "db.csv" []).registerMain).callbacks.length 2 items ∧
      (∀ j, j < ((csvReader.mk "db.csv" []).registerMain).callbacks.length →
        ((((csvReader.mk "db.csv" []).registerMain).Read
          (singleFile "db.csv" "name,price,rating\nA,10,5\nB,20\nC,1,1\n")
          ⟨none, none⟩).calls.filter (fun call => call.idx == j)).map Call.item = items) :=
  csvRead_failure_dispatches_prefix ((csvReader.mk "db.csv" []).registerMain)
    (singleFile "db.csv" "name,price,rating\nA,10,5\nB,20\nC,1,1\n")
    "name,price,rating\nA,10,5\nB,20\nC,1,1\n" 1 ["name", "price", "rating"]
    [⟨2, .ok ["A", "10", "5"]⟩, ⟨3, .ok ["B", "20"]⟩, ⟨4, .ok ["C", "1", "1"]⟩]
    ⟨none, none⟩ (.csv ⟨3, .ErrFieldCount⟩) rfl rfl rfl neverFail_main rfl

/-! ## The factory -/

/-- Whenever `os.Stat` of the trimmed path `p` either succeeds or reports that
`p` does not exist, `NewReaderFromPath` equals `referenceSelection`:
`ErrFileNotExist` when `p` does not exist or is a directory, otherwise a
`jsonReader` bound to `p` with no observers for the suffix `.json`, otherwise a
`csvReader` bound to `p` with no observers for the suffix `.csv`, otherwise
`ErrUnknownFile`.  The result depends on the file system through `os.Stat`
only: no content is read. -/
theorem NewReaderFromPath_of_conclusive_stat (σ : Type) (fs : FS) (path : String)
    (hstat : fs.Stat (TrimSpace path) ≠ .failure) :
    NewReaderFromPath σ fs path =
      some (referenceSelection σ
        (decide (fs.Stat (TrimSpace path) ≠ .notExist))
        (decide (fs.Stat (TrimSpace path) = .info true))
        (TrimSpace path)) ∧
    (∀ fs2 : FS, fs2.Stat = fs.Stat →
      NewReaderFromPath σ fs2 path = NewReaderFromPath σ fs path) := by
  constructor
  · rcases hs : fs.Stat (TrimSpace path) with isDir | _ | _
    · cases isDir
      · simp only [NewReaderFromPath, fileExists, hs, referenceSelection, extJSON, extCSV]
        simp
        split_ifs <;> rfl
      · simp [NewReaderFromPath, fileExists, hs, referenceSelection]
    · simp [NewReaderFromPath, fileExists, hs, referenceSelection]
    · exact absurd hs hstat
  · intro fs2 h2
    simp only [NewReaderFromPath, fileExists, h2]

theorem NewReaderFromPath_of_conclusive_stat_instance :
    NewReaderFromPath Unit (singleFile "data.csv" "whatever") " data.csv\t\n" =
      some (.ok (.csv ⟨"data.csv", []⟩)) :=
  (NewReaderFromPath_of_conclusive_stat Unit (singleFile "data.csv" "whatever")
    " data.csv\t\n" (by decide)).1.trans rfl

/-- C6, at the failing input: in a file system that holds only the regular file
`data.csv`, the path `data.csv/x.csv` does not exist (it cannot be opened), so
the reference selection gives `ErrFileNotExist`; but `os.Stat` fails with an
error that `os.IsNotExist` does not recognise, `fileExists` goes on to
`info.IsDir()` with a nil `info`, and `NewReaderFromPath` panics instead of
returning. -/
theorem NewReaderFromPath_panics_below_regular_file :
    (fileOnly "data.csv" "name,price,rating\n").Stat (TrimSpace "data.csv/x.csv") = .failure ∧
    (fileOnly "data.csv" "name,price,rating\n").Open (TrimSpace "data.csv/x.csv") =
      .error (.pathError "open" "data.csv/x.csv" "not a directory") ∧
    fileExists (fileOnly "data.csv" "name,price,rating\n") "data.csv/x.csv" = none ∧
    NewReaderFromPath Unit (fileOnly "data.csv" "name,price,rating\n") "data.csv/x.csv" =
      none ∧
    referenceSelection Unit false false (TrimSpace "data.csv/x.csv") =
      .error .ErrFileNotExist ∧
    NewReaderFromPath Unit (fileOnly "data.csv" "name,price,rating\n") "data.csv" =
      some (.ok (.csv ⟨"data.csv", []⟩)) :=
  ⟨rfl, rfl, rfl, rfl, rfl, rfl⟩

/-! ## The observers of `main` and the examples -/

/-- C7: the two aggregation observers of `main` compute the earliest maximum.
For every sequence of items, dispatched by `jsonReader.Read` as the elements of
an array or by `csvReader.Read` as the rows after a three-field header, the read
succeeds and afterwards `topPrice` is the first item whose price equals the
maximum price and `topRating` the first item whose rating equals the maximum
rating; for the empty sequence both stay nil. -/
theorem main_observers_keep_first_maximum (fs : FS) (dec : String → JsonDecoder)
    (file content : String) (items : List Item)
    (hopen : fs.Open file = .ok content) :
    (dec content = ⟨none, items.map Except.ok, none⟩ →
      (((jsonReader.mk file []).registerMain).Read fs dec ⟨none, none⟩).result =
        .returned none ∧
      (((jsonReader.mk file []).registerMain).Read fs dec ⟨none, none⟩).state =
        ⟨firstMax Item.Price items, firstMax Item.Rating items⟩) ∧
    (∀ (l : Nat) (hdr : List String) (rows : List RawRecord),
      rawRecords content = ⟨l, .ok hdr⟩ :: rows → hdr.length = 3 →
      List.Forall₂ RowOf rows items →
      (((csvReader.mk file []).registerMain).Read fs ⟨none, none⟩).result = .returned none ∧
      (((csvReader.mk file []).registerMain).Read fs ⟨none, none⟩).state =
        ⟨firstMax Item.Price items, firstMax Item.Rating items⟩) ∧
    firstMax Item.Price [] = none ∧ firstMax Item.Rating [] = none := by
  refine ⟨fun hdec => ?_, fun l hdr rows hrec hhdr hrows => ?_, rfl, rfl⟩
  · have hread : ((jsonReader.mk file []).registerMain).Read fs dec ⟨none, none⟩ =
        jsonLoop [priceObserver, ratingObserver] none (items.map Except.ok) 1 ⟨none, none⟩ := by
      simp only [jsonReader.Read, jsonReader.registerMain, jsonReader.OnReadItem, hopen, hdec,
        List.nil_append, List.cons_append]
    obtain ⟨h1, h2, _⟩ := jsonLoop_items _ neverFail_main items 1 ⟨none, none⟩
    rw [hread, h1, h2, feed_main_firstMax]
    exact ⟨rfl, rfl⟩
  · have hread : ((csvReader.mk file []).registerMain).Read fs ⟨none, none⟩ =
        csvLoop [priceObserver, ratingObserver] rows 2 3 ⟨none, none⟩ := by
      simp only [csvReader.Read, csvReader.registerMain, csvReader.OnReadItem, hopen, hrec,
        List.nil_append, List.cons_append]
      exact csvLoop_header _ l hdr hhdr rows _
    obtain ⟨h1, h2, _⟩ := csvLoop_rows _ neverFail_main rows items hrows [] 2 (le_refl 2)
      ⟨none, none⟩
    simp only [List.append_nil, csvLoop] at h1 h2
    rw [hread, h1, h2, feed_main_firstMax]
    exact ⟨rfl, rfl⟩

/-- C7, an instance with a tie: of the items A(10,5), B(20,3), C(20,5) the top
price is B and the top rating is A, the earliest of the tied items. -/
theorem main_observers_keep_first_maximum_witness :
    (((csvReader.mk "db.csv" []).registerMain).Read
        (singleFile "db.csv" "name,price,rating\nA,10,5\nB,20,3\nC,20,5\n")
        ⟨none, none⟩).state = ⟨some ⟨"B", 20, 3⟩, some ⟨"A", 10, 5⟩⟩ :=
  ((main_observers_keep_first_maximum
    (singleFile "db.csv" "name,price,rating\nA,10,5\nB,20,3\nC,20,5\n")
    (fun _ => ⟨none, [], none⟩) "db.csv" "name,price,rating\nA,10,5\nB,20,3\nC,20,5\n"
    [⟨"A", 10, 5⟩, ⟨"B", 20, 3⟩, ⟨"C", 20, 5⟩] rfl).2.1 1 ["name", "price", "rating"]
    [⟨2, .ok ["A", "10", "5"]⟩, ⟨3, .ok ["B", "20", "3"]⟩, ⟨4, .ok ["C", "20", "5"]⟩]
    rfl rfl
    (List.Forall₂.cons ⟨"10", "5", rfl, rfl, rfl⟩
      (List.Forall₂.cons ⟨"20", "3", rfl, rfl, rfl⟩
        (List.Forall₂.cons ⟨"20", "5", rfl, rfl, rfl⟩ List.Forall₂.nil)))).2.trans rfl

/-- C8 (as amended): with a header of three fields in place of `header`, reading
`name,price,rating` / `A,10,5` / `B,20,3` / `C,15,9` with `csvReader.Read` after
the two registrations of `main` succeeds and leaves top-price = Item{B,20,3} and
top-rating = Item{C,15,9}. -/
theorem csvRead_example_three_field_header :
    (((csvReader.mk "db.csv" []).registerMain).Read
        (singleFile "db.csv" "name,price,rating\nA,10,5\nB,20,3\nC,15,9\n")
        ⟨none, none⟩).result = .returned none ∧
    (((csvReader.mk "db.csv" []).registerMain).Read
        (singleFile "db.csv" "name,price,rating\nA,10,5\nB,20,3\nC,15,9\n")
        ⟨none, none⟩).state = ⟨some ⟨"B", 20, 3⟩, some ⟨"C", 15, 9⟩⟩ :=
  ⟨rfl, rfl⟩

/-- C8 fails as stated: on the input `header` / `A,10,5` / `B,20,3` / `C,15,9` the
first row has one field, so `csvReader.Read` returns `ErrUnknownFile`, no
observer is invoked and top-price and top-rating stay nil. -/
theorem csvRead_example_one_field_header_fails :
    rawRecords "header\nA,10,5\nB,20,3\nC,15,9\n" =
      [⟨1, .ok ["header"]⟩, ⟨2, .ok ["A", "10", "5"]⟩, ⟨3, .ok ["B", "20", "3"]⟩,
       ⟨4, .ok ["C", "15", "9"]⟩] ∧
    (((csvReader.mk "db.csv" []).registerMain).Read
        (singleFile "db.csv" "header\nA,10,5\nB,20,3\nC,15,9\n")
        ⟨none, none⟩).result = .returned (some .ErrUnknownFile) ∧
    (((csvReader.mk "db.csv" []).registerMain).Read
        (singleFile "db.csv" "header\nA,10,5\nB,20,3\nC,15,9\n")
        ⟨none, none⟩).state = ⟨none, none⟩ ∧
    (((csvReader.mk "db.csv" []).registerMain).Read
        (singleFile "db.csv" "header\nA,10,5\nB,20,3\nC,15,9\n")
        ⟨none, none⟩).calls = [] :=
  ⟨rfl, rfl, rfl, rfl⟩

/-! ## The structured reader -/

/-- C9: `jsonReader.Read` dispatches exactly the array elements, in order.  For
every file that the decoder reads as a top-level array of N elements that decode
to the items `items`, and every list of observers that never report an error,
`Read` returns nil, the log of invocations is exactly the N items in array
order, each given to the observers in the order of registration, and so every
observer receives exactly the N items in array order.  For the array of
A(10,5) and B(20,3) and the two observers of `main`, top-price is B and
top-rating is A. -/
theorem jsonRead_dispatches_elements {σ : Type} (j : jsonReader σ) (fs : FS)
    (dec : String → JsonDecoder) (content : String) (items : List Item) (s : σ)
    (hopen : fs.Open j.file = .ok content)
    (hdec : dec content = ⟨none, items.map Except.ok, none⟩)
    (hobs : NeverFail j.callbacks) :
    ((j.Read fs dec s).result = .returned none ∧
     (j.Read fs dec s).calls = dispatchLog j.callbacks.length 1 items ∧
     (j.Read fs dec s).state = feed j.callbacks items s ∧
     (∀ k, k < j.callbacks.length →
       ((j.Read fs dec s).calls.filter (fun call => call.idx == k)).map Call.item = items)) ∧
    (((jsonReader.mk "db.json" []).registerMain).Read
        (singleFile "db.json" content)
        (fun _ => ⟨none, [.ok ⟨"A", 10, 5⟩, .ok ⟨"B", 20, 3⟩], none⟩) ⟨none, none⟩).result =
      .returned none ∧
    (((jsonReader.mk "db.json" []).registerMain).Read
        (singleFile "db.json" content)
        (fun _ => ⟨none, [.ok ⟨"A", 10, 5⟩, .ok ⟨"B", 20, 3⟩], none⟩) ⟨none, none⟩).state =
      ⟨some ⟨"B", 20, 3⟩, some ⟨"A", 10, 5⟩⟩ := by
  have hread : j.Read fs dec s = jsonLoop j.callbacks none (items.map Except.ok) 1 s := by
    simp only [jsonReader.Read, hopen, hdec]
  obtain ⟨h1, h2, h3⟩ := jsonLoop_items j.callbacks hobs items 1 s
  rw [hread]
  refine ⟨⟨h1, h3, h2, fun k hk => ?_⟩, rfl, rfl⟩
  rw [h3]
  exact dispatchLog_observer _ _ _ k hk

/-- C9, an instance: three observers that count and an array of two elements. -/
theorem jsonRead_dispatches_elements_witness :
    ((jsonReader.mk "db.json" [countingObserver, countingObserver, countingObserver]).Read
        (singleFile "db.json" "[]")
        (fun _ => ⟨none, [.ok ⟨"A", 10, 5⟩, .ok ⟨"B", 20, 3⟩], none⟩) 0).state = 6 :=
  (jsonRead_dispatches_elements
    (jsonReader.mk "db.json" [countingObserver, countingObserver, countingObserver])
    (singleFile "db.json" "[]")
    (fun _ => ⟨none, [.ok ⟨"A", 10, 5⟩, .ok ⟨"B", 20, 3⟩], none⟩) "[]"
    [⟨"A", 10, 5⟩, ⟨"B", 20, 3⟩] 0 rfl rfl
    (fun fn hfn it n => by
      simp only [List.mem_cons, List.mem_singleton, List.not_mem_nil, or_false, or_self] at hfn
      subst hfn
      rfl)).1.2.2.1.trans rfl

end reader
